import Mathlib

/-!
Verification development for the voice-operated OTC trading bot (`src/app.py`).

The program is a Flask application driving a slot-filling dialogue.  We give a
shallow embedding of its conversation state machine: strings are `List Char`,
Python floats are modelled by `ℚ`, fallible operations return `Option`/`Except`,
and the two external collaborators (the `word2number` library and the `ccxt`
price fetch) are passed in as oracle functions.  All definitions are executable
so that concrete traces evaluate by `decide`/`rfl`.
-/

/-- Strings are modelled as lists of characters. -/
abbrev Str := List Char

/-- Turn a Lean string literal into our string model. -/
def strL (s : String) : Str := s.toList

/-- Python `str.isspace`-style whitespace, as matched by `\s` and `str.strip`. -/
def isPySpace (c : Char) : Bool :=
  c == ' ' || c == '\t' || c == '\n' || c == '\r' || c == '\x0b' || c == '\x0c'

/-- Word character for the regex `\b` boundary (ASCII model of `\w`). -/
def isWordChar (c : Char) : Bool :=
  c.isAlpha || c.isDigit || c == '_'

/-- Character class `[A-Z0-9]` used by the trading-pair patterns. -/
def isUpAlnum (c : Char) : Bool :=
  decide (('A' ≤ c ∧ c ≤ 'Z') ∨ ('0' ≤ c ∧ c ≤ '9'))

/-- Decidable Boolean prefix test on character lists. -/
def isPre : Str → Str → Bool
  | [], _ => true
  | _ :: _, [] => false
  | a :: as, b :: bs => a == b && isPre as bs

/-- Decidable Boolean substring test (Python `needle in hay`). -/
def isSubstr : Str → Str → Bool
  | n, [] => n.isEmpty
  | n, c :: cs => isPre n (c :: cs) || isSubstr n cs

/-- Python `str.lower` (ASCII model). -/
def lowerStr (s : Str) : Str := s.map Char.toLower

/-- Python `str.upper` (ASCII model). -/
def upperStr (s : Str) : Str := s.map Char.toUpper

/-- Python `str.strip`: drop whitespace from both ends. -/
def pyStrip (s : Str) : Str :=
  ((s.dropWhile isPySpace).reverse.dropWhile isPySpace).reverse

/-- Fuel-driven worker for `replaceAll` (Python `str.replace`): replaces
non-overlapping occurrences left to right.  Fuel is the input length, which
bounds the number of recursion steps. -/
def raGo (needle repl : Str) : Nat → Str → Str
  | 0, s => s
  | _ + 1, [] => []
  | fuel + 1, c :: cs =>
    if !needle.isEmpty && isPre needle (c :: cs) then
      repl ++ raGo needle repl fuel ((c :: cs).drop needle.length)
    else
      c :: raGo needle repl fuel cs

/-- Python `str.replace needle repl` on our string model. -/
def replaceAll (needle repl s : Str) : Str := raGo needle repl s.length s

/-- Whether the last character of a word is a word character (used to carry the
`\b` context across a replacement). -/
def lastIsWordChar (w : Str) : Bool :=
  match w.getLast? with
  | some d => isWordChar d
  | none => false

/-- Boundary at the end of a match of `\bW\b`: the following character must not
be a word character (or the string ends). -/
def endWordBoundary : Str → Bool
  | [] => true
  | c :: _ => !isWordChar c

/-- Fuel-driven worker for `replaceWord`, modelling `re.sub(r'\bW\b', repl, s)`:
scan left to right tracking whether the previous character is a word character,
and replace occurrences of `w` surrounded by word boundaries. -/
def rwGo (w repl : Str) : Nat → Bool → Str → Str
  | 0, _, s => s
  | _ + 1, _, [] => []
  | fuel + 1, prevW, c :: cs =>
    if !prevW && isPre w (c :: cs) && endWordBoundary ((c :: cs).drop w.length) then
      repl ++ rwGo w repl fuel (lastIsWordChar w) ((c :: cs).drop w.length)
    else
      c :: rwGo w repl fuel (isWordChar c) cs

/-- `re.sub(r'\bW\b', repl, s)` for a word `w` made of word characters. -/
def replaceWord (w repl s : Str) : Str := rwGo w repl s.length false s

/-- Length of the maximal prefix of `s` whose characters satisfy `p` (the text a
greedy character-class repetition can consume). -/
def classRun (p : Char → Bool) : Str → Nat
  | [] => 0
  | c :: cs => if p c then classRun p cs + 1 else 0

/-- `[n, n-1, ..., lo]` (empty when `n < lo`): the candidate lengths a greedy
quantifier tries, longest first. -/
def descList : Nat → Nat → List Nat
  | 0, lo => if lo = 0 then [0] else []
  | n + 1, lo => if n + 1 < lo then [] else (n + 1) :: descList n lo

/-- The separator class `[/\- ]` of the first trading-pair pattern. -/
def sepChar (c : Char) : Bool := c == '/' || c == '-' || c == ' '

/-- Pattern 1, tail after the separator and optional whitespace: greedy
`([A-Z0-9]{2,6})\b`.  Returns the second capture group. -/
def p1Group2 (rest4 : Str) : Option Str :=
  (descList (min 6 (classRun isUpAlnum rest4)) 2).findSome? fun k2 =>
    if endWordBoundary (rest4.drop k2) then some (rest4.take k2) else none

/-- Pattern 1, tail after the separator character: `\s*([A-Z0-9]{2,6})\b`. -/
def p1AfterSep (rest3 : Str) : Option Str :=
  (descList (classRun isPySpace rest3) 0).findSome? fun t2 =>
    p1Group2 (rest3.drop t2)

/-- Pattern 1, tail after the first capture group: `\s*[/\- ]\s*([A-Z0-9]{2,6})\b`. -/
def p1AfterG1 (rest : Str) : Option Str :=
  (descList (classRun isPySpace rest) 0).findSome? fun t =>
    match rest.drop t with
    | c :: rest3 => if sepChar c then p1AfterSep rest3 else none
    | [] => none

/-- Attempt pattern 1, `\b([A-Z0-9]{2,6})\s*[/\- ]\s*([A-Z0-9]{2,6})\b`, at one
position; `prevW` says whether the preceding character is a word character (the
leading `\b` fails when it is, since the first group consumes a word character). -/
def matchP1At (prevW : Bool) (s : Str) : Option (Str × Str) :=
  if prevW then none
  else
    (descList (min 6 (classRun isUpAlnum s)) 2).findSome? fun k1 =>
      (p1AfterG1 (s.drop k1)).map fun g2 => (s.take k1, g2)

/-- `re.search` for pattern 1: try every position left to right, tracking the
word-boundary context. -/
def searchP1Go : Bool → Str → Option (Str × Str)
  | prevW, [] => matchP1At prevW []
  | prevW, c :: cs =>
    match matchP1At prevW (c :: cs) with
    | some r => some r
    | none => searchP1Go (isWordChar c) cs

/-- Match a literal string, returning the remainder. -/
def dropLit (lit s : Str) : Option Str :=
  if isPre lit s then some (s.drop lit.length) else none

/-- Greedy `\s+` followed by a continuation (tries the longest run first, at
least one character). -/
def wsPlusThen (f : Str → Option α) (s : Str) : Option α :=
  (descList (classRun isPySpace s) 1).findSome? fun t => f (s.drop t)

/-- Greedy capture group `([A-Z0-9]{2,6})` followed by a continuation on the
group text and the remainder. -/
def tokThen (f : Str → Str → Option α) (s : Str) : Option α :=
  (descList (min 6 (classRun isUpAlnum s)) 2).findSome? fun k =>
    f (s.take k) (s.drop k)

/-- Attempt `trade\s+([A-Z0-9]{2,6})\s+MID\s+([A-Z0-9]{2,6})` at one position
(patterns 2 and 3, with `MID` = `with` or `against`). -/
def matchTradeAt (mid : Str) (s : Str) : Option (Str × Str) :=
  (dropLit (strL ("trade")) s).bind fun r1 =>
    wsPlusThen (fun r2 =>
      tokThen (fun g1 r3 =>
        wsPlusThen (fun r4 =>
          (dropLit mid r4).bind fun r5 =>
            wsPlusThen (fun r6 =>
              tokThen (fun g2 _ => some (g1, g2)) r6) r5) r3) r2) r1

/-- Attempt `([A-Z0-9]{2,6})\s+MID\s+([A-Z0-9]{2,6})` at one position
(patterns 4 and 5, with `MID` = `to` or `versus`). -/
def matchTokMidAt (mid : Str) (s : Str) : Option (Str × Str) :=
  tokThen (fun g1 r =>
    wsPlusThen (fun r2 =>
      (dropLit mid r2).bind fun r3 =>
        wsPlusThen (fun r4 =>
          tokThen (fun g2 _ => some (g1, g2)) r4) r3) r) s

/-- `re.search` for a boundary-free pattern: try every position left to right. -/
def searchAt (m : Str → Option α) : Str → Option α
  | [] => m []
  | c :: cs =>
    match m (c :: cs) with
    | some r => some r
    | none => searchAt m cs

/-- The mispronunciation table of `app.py`, in dictionary insertion order. -/
def mispronunciations : List (Str × Str) :=
  [ (strL ("e t h"), strL ("ETH")),
    (strL ("b t c"), strL ("BTC")),
    (strL ("u s d t"), strL ("USDT")),
    (strL ("u s d"), strL ("USD")),
    (strL ("u s DTPL"), strL ("USDT")),
    (strL ("bit coin"), strL ("BTC")),
    (strL ("ether"), strL ("ETH")) ]

/-- The preprocessing of `extract_trading_pair` after uppercasing: rewrite the
spoken separator words and apply the mispronunciation substitutions. -/
def preprocessPair (t : Str) : Str :=
  let t1 := replaceWord (strL ("SLASH")) (strL ("/")) t
  let t2 := replaceWord (strL ("DASH")) (strL ("-")) t1
  let t3 := replaceWord (strL ("HYPHEN")) (strL ("-")) t2
  mispronunciations.foldl (fun acc p => replaceAll (upperStr p.1) p.2 acc) t3

/-- `extract_trading_pair` of `app.py`: uppercase, preprocess, then try the five
patterns in their fixed priority order; the first match yields `BASE/QUOTE`. -/
def extract_trading_pair (transcript : Str) : Option Str :=
  let t := preprocessPair (upperStr transcript)
  match searchP1Go false t with
  | some (b, q) => some (b ++ '/' :: q)
  | none =>
    match searchAt (matchTradeAt (strL ("with"))) t with
    | some (b, q) => some (b ++ '/' :: q)
    | none =>
      match searchAt (matchTradeAt (strL ("against"))) t with
      | some (b, q) => some (b ++ '/' :: q)
      | none =>
        match searchAt (matchTokMidAt (strL ("to"))) t with
        | some (b, q) => some (b ++ '/' :: q)
        | none =>
          match searchAt (matchTokMidAt (strL ("versus"))) t with
          | some (b, q) => some (b ++ '/' :: q)
          | none => none

/-- The exchange variant table of `app.py`, in dictionary insertion order. -/
def exchange_variant_table : List (Str × List Str) :=
  [ (strL ("okx"), [strL ("okx"), strL ("okay ex"), strL ("okay x"), strL ("o k x"),
      strL ("ok ex"), strL ("ok x")]),
    (strL ("bybit"), [strL ("bybit"), strL ("buy bit"), strL ("by bit")]),
    (strL ("deribit"), [strL ("deribit"), strL ("dairy bit"), strL ("deri bit")]),
    (strL ("binance"), [strL ("binance"), strL ("finance"), strL ("by nance")]) ]

/-- `extract_exchange` of `app.py`: case-insensitive substring match against the
variant table; the first matching exchange wins. -/
def extract_exchange (transcript : Str) : Option Str :=
  let tl := lowerStr transcript
  exchange_variant_table.findSome? fun p =>
    if p.2.any (fun v => isSubstr v tl) then some p.1 else none

example : extract_trading_pair (strL ("trade btc with usdt")) = some (strL ("TRADE/BTC")) := by decide
example : extract_trading_pair (strL ("BTC slash USDT")) = some (strL ("BTC/USDT")) := by decide
example : extract_exchange (strL ("I want binance please")) = some (strL ("binance")) := by decide
example : extract_trading_pair (strL ("hello")) = none := by decide

/-- Numeric value of a list of decimal digits. -/
def digitsVal (l : Str) : Nat := l.foldl (fun a c => a * 10 + (c.toNat - 48)) 0

/-- Split off the maximal leading run of decimal digits. -/
def takeDigits : Str → Str × Str
  | [] => ([], [])
  | c :: cs =>
    if c.isDigit then
      let p := takeDigits cs
      (c :: p.1, p.2)
    else ([], c :: cs)

/-- The rational denoted by integer digits `d1` and fractional digits `d2`
(`float` of the matched text in the source).  The integral case avoids the
division so that values of whole-number literals reduce in the kernel. -/
def ratOfParts (d1 d2 : Str) : ℚ :=
  if d2.isEmpty then (digitsVal d1 : ℚ)
  else ((digitsVal d1 : ℚ) * 10 ^ d2.length + (digitsVal d2 : ℚ)) / (10 : ℚ) ^ d2.length

/-- Fuel-driven worker for `re.findall(r'\d+(?:\.\d+)?', s)`: scan left to
right, taking maximal digit runs with an optional fractional part. -/
def findallGo : Nat → Str → List ℚ
  | 0, _ => []
  | _ + 1, [] => []
  | fuel + 1, c :: cs =>
    if c.isDigit then
      let p := takeDigits (c :: cs)
      match p.2 with
      | '.' :: d :: r2 =>
        if d.isDigit then
          let p2 := takeDigits (d :: r2)
          ratOfParts p.1 p2.1 :: findallGo fuel p2.2
        else ratOfParts p.1 [] :: findallGo fuel p.2
      | _ => ratOfParts p.1 [] :: findallGo fuel p.2
    else findallGo fuel cs

/-- All decimal literals of a string, in order (`re.findall(r'\d+(?:\.\d+)?', s)`). -/
def findallNums (s : Str) : List ℚ := findallGo s.length s

/-- `extract_number` of `app.py`: strip currency symbols, look for the first
decimal literal, and otherwise fall back to the `word2number` library, which we
model as an oracle returning `none` on its `ValueError`. -/
def extract_number (w2nO : Str → Option ℚ) (transcript : Str) : Option ℚ :=
  let clean := transcript.filter fun c =>
    !(c == ',' || c == '$' || c == '€' || c == '£' || c == '¥')
  match findallNums clean with
  | x :: _ => some x
  | [] => w2nO clean

/-- Loop of `get_current_price`: up to `retries` attempts of the external fetch
(modelled as an oracle from attempt index to result); on a failed non-final
attempt sleep `delay` and double it.  Returns the `(price, error)` pair together
with the list of sleeps performed; `none` models the Python fall-through (no
return value) when `retries = 0`. -/
def gcpLoop (fetch : Nat → Option ℚ) (retries : Nat) :
    List Nat → Nat → List Nat → Option ((Option ℚ × Option Str) × List Nat)
  | [], _, _ => none
  | a :: rest, delay, sleeps =>
    match fetch a with
    | some p => some ((some p, none), sleeps)
    | none =>
      if a < retries - 1 then gcpLoop fetch retries rest (delay * 2) (sleeps ++ [delay])
      else some ((none, some (strL ("failed to fetch price"))), sleeps)

/-- `get_current_price` of `app.py` (defaults `retries = 3`, `delay = 1`). -/
def get_current_price (fetch : Nat → Option ℚ) (retries delay : Nat) :
    Option ((Option ℚ × Option Str) × List Nat) :=
  gcpLoop fetch retries (List.range retries) delay []

/-- Minimal number of extra decimal places needed to make `q` integral, with
fuel; `none` when the rational has no terminating decimal expansion. -/
def decCountGo : ℚ → Nat → Nat → Option Nat
  | q, k, fuel =>
    if q.den = 1 then some k
    else match fuel with
      | 0 => none
      | f + 1 => decCountGo (q * 10) (k + 1) f

/-- Decimal digits of a natural number. -/
def natDigits (n : Nat) : Str := (Nat.repr n).toList

/-- Left-pad with zeros to `k` digits. -/
def padZeros (k : Nat) (s : Str) : Str := List.replicate (k - s.length) '0' ++ s

/-- Model of Python `str(float)` for the rationals that arise from decimal
literals: print the shortest terminating decimal expansion, with `.0` for
integral values (e.g. `5.0`, `0.5`).  Rationals without a terminating expansion
(which cannot arise from parsed decimals) are printed as a fraction. -/
def pyFloatRepr (q : ℚ) : Str :=
  let sign : Str := if q < 0 then strL ("-") else []
  let a := |q|
  match decCountGo a 0 30 with
  | some 0 => sign ++ natDigits a.num.toNat ++ strL (".0")
  | some k =>
    let n := (a * 10 ^ k).num.toNat
    sign ++ natDigits (n / 10 ^ k) ++ '.' :: padZeros k (natDigits (n % 10 ^ k))
  | none => sign ++ natDigits a.num.natAbs ++ '/' :: natDigits a.den

/-- Model of Python `f"{q:.2f}"`: two decimal places (rounding half away from
zero; exact for the cent-exact values exercised here). -/
def fix2 (q : ℚ) : Str :=
  let sign : Str := if q < 0 then strL ("-") else []
  let n := (|q| * 100 + 1 / 2).floor.toNat
  sign ++ natDigits (n / 100) ++ '.' :: padZeros 2 (natDigits (n % 100))

/-- One history entry (`{'sender': …, 'text': …, 'timestamp': …}`). -/
structure Msg where
  sender : Str
  text : Str
  timestamp : Str
deriving DecidableEq

/-- The four slots, in the priority order of `app.py`. -/
inductive Slot
  | exchange
  | trading_pair
  | quantity
  | price
deriving DecidableEq

/-- One conversation state, as stored in `conversation_state[call_id]`. -/
structure SessionState where
  exchange : Option Str
  trading_pair : Option Str
  quantity : Option ℚ
  price : Option ℚ
  messages : List Msg
  ended : Bool
  created : ℚ
  current_step : Slot
  retry_count : Nat
deriving DecidableEq

/-- The fixed greeting of `start_call`. -/
def initial_message : Str :=
  strL ("Hello! Welcome to Voice Trading Assistant. Please choose an exchange: OKX, Bybit, Deribit, or Binance.")

/-- `start_call` of `app.py`: the freshly initialised session state. -/
def start_call (now : Str) (createdAt : ℚ) : SessionState :=
  { exchange := none
    trading_pair := none
    quantity := none
    price := none
    messages := [⟨strL ("bot"), initial_message, now⟩]
    ended := false
    created := createdAt
    current_step := Slot.exchange
    retry_count := 0 }

/-- The correction keyword list of `app.py`. -/
def correction_keywords : List Str :=
  [ strL ("i meant"), strL ("actually"), strL ("instead"), strL ("change to"),
    strL ("correct to"), strL ("no,"), strL ("not"), strL ("mistake"), strL ("wrong") ]

/-- Correction detection: any keyword occurs in the lowercased transcript. -/
def isCorrectionB (transcript : Str) : Bool :=
  correction_keywords.any fun k => isSubstr k (lowerStr transcript)

/-- `exchange_display_names` of `app.py`. -/
def exchange_display_names : List (Str × Str) :=
  [ (strL ("okx"), strL ("OKX")), (strL ("bybit"), strL ("Bybit")),
    (strL ("deribit"), strL ("Deribit")), (strL ("binance"), strL ("Binance")) ]

/-- Association-list lookup (Python `dict.get` with a default). -/
def displayGet (e dflt : Str) : Str :=
  (exchange_display_names.findSome? fun p => if p.1 == e then some p.2 else none).getD dflt

/-- Python `str.capitalize` (ASCII model). -/
def pyCapitalize : Str → Str
  | [] => []
  | c :: cs => c.toUpper :: lowerStr cs

/-- Python truthiness of an optional string (`if exch:`). -/
def pyTruthyStr : Option Str → Bool
  | none => false
  | some s => !s.isEmpty

/-- Python truthiness of an optional number (`if state['quantity']:`). -/
def pyTruthyQ : Option ℚ → Bool
  | none => false
  | some v => decide (v ≠ 0)

/-- Python f-string rendering of an optional string (`None` prints as `None`). -/
def optStrPy : Option Str → Str
  | none => strL ("None")
  | some s => s

/-- Python f-string rendering of an optional float. -/
def qtyRepr : Option ℚ → Str
  | none => strL ("None")
  | some v => pyFloatRepr v

/-- Python `f"{x:.2f}"` on an optional float; the `none` case is unreachable at
its use site (finalization implies the slot is set). -/
def fix2O : Option ℚ → Str
  | none => strL ("None")
  | some v => fix2 v

/-- `numbers` of the webhook (line 250): all decimal literals of the lowercased
transcript, or the singleton `extract_number` fallback (which may be `None`). -/
def numbersOf (w2nO : Str → Option ℚ) (transcript : Str) : List (Option ℚ) :=
  let dig := findallNums (lowerStr transcript)
  if dig.isEmpty then [extract_number w2nO transcript] else dig.map some

/-- `numbers[0]` under the truthiness guard of line 252. -/
def headO : List (Option ℚ) → Option ℚ
  | [] => none
  | x :: _ => x

/-- `numbers[-1]` under the truthiness guard of line 253. -/
def lastO : List (Option ℚ) → Option ℚ
  | [] => none
  | [x] => x
  | _ :: y :: t => lastO (y :: t)

/-- `'at' in transcript_lower` — a substring test, not a word test. -/
def hasAt (transcript : Str) : Bool := isSubstr (strL ("at")) (lowerStr transcript)

/-- The quantity candidate of a turn (line 252):
`numbers[0] if numbers and 'at' not in transcript_lower else None`. -/
def qtyCand (w2nO : Str → Option ℚ) (transcript : Str) : Option ℚ :=
  let numbers := numbersOf w2nO transcript
  if !numbers.isEmpty && !hasAt transcript then headO numbers else none

/-- The price candidate of a turn (line 253): `numbers[-1] if numbers and 'at'
in transcript_lower else (numbers[0] if numbers and state['quantity'] else None)`. -/
def priceCand (w2nO : Str → Option ℚ) (stQty : Option ℚ) (transcript : Str) : Option ℚ :=
  let numbers := numbersOf w2nO transcript
  if !numbers.isEmpty && hasAt transcript then lastO numbers
  else if !numbers.isEmpty && pyTruthyQ stQty then headO numbers
  else none

/-- Acknowledgment fragment for the exchange slot (`f"exchange to {…}"`). -/
def ackExchFrag : Option Str → Str
  | some e => strL ("exchange to ") ++ displayGet e e
  | none => strL ("exchange to None")

/-- Acknowledgment fragment for the trading-pair slot. -/
def ackPairFrag (s : Option Str) : Str := strL ("trading pair to ") ++ optStrPy s

/-- Acknowledgment fragment for the quantity slot. -/
def ackQtyFrag (q : Option ℚ) : Str := strL ("quantity to ") ++ qtyRepr q

/-- Acknowledgment fragment for the price slot. -/
def ackPriceFrag (p : Option ℚ) : Str := strL ("price to ") ++ qtyRepr p

/-- The slot resolver, lines 259–286 of `app.py`.  The two source branches are
merged with per-slot guards: on a correction every truthy candidate overwrites
its slot, otherwise a truthy candidate is applied only when the slot is `None`;
the acknowledgment fragments are collected in the fixed slot order of both
branches. -/
def applySlots (st : SessionState) (corr : Bool) (exch sym : Option Str)
    (q p : Option ℚ) : SessionState × List Str :=
  let exU := if corr then pyTruthyStr exch else st.exchange.isNone && pyTruthyStr exch
  let syU := if corr then pyTruthyStr sym else st.trading_pair.isNone && pyTruthyStr sym
  let qU := if corr then q.isSome else st.quantity.isNone && q.isSome
  let pU := if corr then p.isSome else st.price.isNone && p.isSome
  ({ st with
     exchange := if exU then exch else st.exchange
     trading_pair := if syU then sym else st.trading_pair
     quantity := if qU then q else st.quantity
     price := if pU then p else st.price },
   (if exU then [ackExchFrag exch] else []) ++
   (if syU then [ackPairFrag sym] else []) ++
   (if qU then [ackQtyFrag q] else []) ++
   (if pU then [ackPriceFrag p] else []))

/-- The slot priority order `['exchange', 'trading_pair', 'quantity', 'price']`. -/
def slotOrder : List Slot := [Slot.exchange, Slot.trading_pair, Slot.quantity, Slot.price]

/-- Whether a slot of the session is unset. -/
def slotIsNone (st : SessionState) : Slot → Bool
  | Slot.exchange => st.exchange.isNone
  | Slot.trading_pair => st.trading_pair.isNone
  | Slot.quantity => st.quantity.isNone
  | Slot.price => st.price.isNone

/-- `missing_slots` of the webhook (line 292). -/
def missingOf (st : SessionState) : List Slot := slotOrder.filter (slotIsNone st)

/-- The escalation table of prompts (lines 320–341), indexed by
`min(retry_count, 2)`; the quantity prompts interpolate the trading pair. -/
def promptFor (s : Slot) (pair : Option Str) (idx : Nat) : Str :=
  match s, idx with
  | Slot.exchange, 0 => strL ("Please choose an exchange: OKX, Bybit, Deribit, or Binance.")
  | Slot.exchange, 1 => strL ("Which exchange? Say OKX, Bybit, Deribit, or Binance.")
  | Slot.exchange, _ => strL ("Exchange name, please (e.g., OKX).")
  | Slot.trading_pair, 0 => strL ("What trading pair would you like? (e.g., BTC/USDT)")
  | Slot.trading_pair, 1 => strL ("Please specify the trading pair, like ETH/USDT.")
  | Slot.trading_pair, _ => strL ("Trading pair? (e.g., BTC/USDT)")
  | Slot.quantity, 0 => strL ("How many units of ") ++ optStrPy pair ++ strL ("?")
  | Slot.quantity, 1 => strL ("Number of ") ++ optStrPy pair ++ strL (" units, please.")
  | Slot.quantity, _ => strL ("Quantity for ") ++ optStrPy pair ++ strL ("?")
  | Slot.price, 0 => strL ("At what price? Just say the number.")
  | Slot.price, 1 => strL ("Please say the price (e.g., 2000).")
  | Slot.price, _ => strL ("Price?")

/-- The generic fallback response of line 344. -/
def fallbackResponse : Str := strL ("Sorry, I didn’t catch that. Please try again.")

/-- ASCII apostrophe. -/
def apos : Char := Char.ofNat 39

/-- The price-lookup warning prefix of line 298. -/
def couldntFetch : Str := strL ("⚠️ Couldn") ++ apos :: strL ("t fetch price: ")

/-- The warning text embedding the error (an f-string, so `None` prints as `None`). -/
def warnMsg (err : Option Str) : Str := couldntFetch ++ optStrPy err ++ strL (".")

/-- `price_msg` of line 298: the market price when the fetched value is truthy,
else the warning. -/
def priceMsgOf (cp : Option ℚ) (err : Option Str) : Str :=
  match cp with
  | some p => if p = 0 then warnMsg err else strL ("Current market price is $") ++ fix2 p ++ strL (".")
  | none => warnMsg err

/-- The order-confirmation message of lines 296–304. -/
def confirmMsg (st2 : SessionState) (cp : Option ℚ) (err : Option Str) : Str :=
  let disp := match st2.exchange with
    | some e => displayGet e (pyCapitalize e)
    | none => strL ("None")
  strL ("✅ Order confirmed: Trading ") ++ qtyRepr st2.quantity ++ strL (" ") ++
    optStrPy st2.trading_pair ++ strL (" on ") ++ disp ++ strL (" at $") ++
    fix2O st2.price ++ strL (". ") ++ priceMsgOf cp err ++ strL (" Goodbye!")

/-- Append a history entry. -/
def addMsg (st : SessionState) (sender text ts : Str) : SessionState :=
  { st with messages := st.messages ++ [⟨sender, text, ts⟩] }

/-- Extraction plus slot resolution of one turn (lines 241–286). -/
def turnApply (st : SessionState) (transcript : Str) (w2nO : Str → Option ℚ) :
    SessionState × List Str :=
  applySlots st (isCorrectionB transcript) (extract_exchange transcript)
    (extract_trading_pair transcript) (qtyCand w2nO transcript)
    (priceCand w2nO st.quantity transcript)

/-- `' and '.join`. -/
def joinAnd : List Str → Str
  | [] => []
  | [x] => x
  | x :: y :: t => x ++ strL (" and ") ++ joinAnd (y :: t)

/-- The error text of a turn on an ended session (line 232). -/
def sessionEndedErr : Str := strL ("Session has ended")

/-- The finalization branch of the webhook (lines 293–307): fetch the price,
compose the confirmation, mark the session ended, reset the retry counter, and
append the bot response.  The `none` branch models the Python crash that would
follow a fall-through of `get_current_price`, which cannot happen for 3 retries. -/
def finalizeTurn (st2 : SessionState) (fetch : Nat → Option ℚ) (now : Str) :
    SessionState × Except Str Str :=
  match get_current_price fetch 3 1 with
  | none => (st2, Except.error (strL ("TypeError")))
  | some r =>
    let bot := confirmMsg st2 r.1.1 r.1.2
    (addMsg { st2 with ended := true, retry_count := 0 } (strL ("bot")) bot now, Except.ok bot)

/-- The prompting branch of the webhook (lines 308–344): set the current step to
the first missing slot, bump the retry counter when nothing was updated, and
compose acknowledgment plus escalating prompt — or the generic fallback when
both the acknowledgment is empty and the prompt index is 0. -/
def promptResponse (st2 : SessionState) (updated : List Str) (n : Slot) : Str :=
  let retry2 := if updated.isEmpty then st2.retry_count + 1 else st2.retry_count
  let ack := if !updated.isEmpty then strL ("Got it, updated ") ++ joinAnd updated ++ strL (".") else []
  let idx := min retry2 2
  if !ack.isEmpty || idx > 0 then pyStrip (ack ++ ' ' :: promptFor n st2.trading_pair idx)
  else fallbackResponse

/-- State update of the prompting branch plus its response. -/
def promptTurn (st2 : SessionState) (updated : List Str) (n : Slot) (now : Str) :
    SessionState × Except Str Str :=
  let retry2 := if updated.isEmpty then st2.retry_count + 1 else st2.retry_count
  let bot := promptResponse st2 updated n
  (addMsg { st2 with current_step := n, retry_count := retry2 } (strL ("bot")) bot now, Except.ok bot)

/-- The `/webhook` handler of `app.py` for one session: reject ended sessions,
append the user utterance, extract and resolve slots, then finalize or prompt.
External collaborators are oracles: `w2nO` for `word2number`, `fetch` for the
exchange ticker. -/
def webhook (st : SessionState) (rawT : Str) (tsOpt : Option Str) (now : Str)
    (w2nO : Str → Option ℚ) (fetch : Nat → Option ℚ) : SessionState × Except Str Str :=
  if st.ended then (st, Except.error sessionEndedErr)
  else
    let transcript := pyStrip rawT
    let st1 := addMsg st (strL ("user")) transcript (tsOpt.getD now)
    let ap := turnApply st1 transcript w2nO
    match missingOf ap.1 with
    | [] => finalizeTurn ap.1 fetch now
    | n :: _ => promptTurn ap.1 ap.2 n now

/-- The `/end-call` handler for an existing session: force `ended = true`. -/
def end_call (st : SessionState) : SessionState × Str :=
  ({ st with ended := true }, strL ("Session ended"))

/-- Oracle for a `word2number` call that always raises `ValueError`. -/
def w2n_none : Str → Option ℚ := fun _ => none

/-- Oracle for a price fetch that always fails. -/
def fetch_fail : Nat → Option ℚ := fun _ => none

/-- Oracle for a price fetch that always succeeds with a fixed price. -/
def fetch_const (v : ℚ) : Nat → Option ℚ := fun _ => some v


/-! ### Helper lemmas about the turn function -/

/-- All four slots of a session are filled. -/
def allSlotsSet (st : SessionState) : Prop :=
  st.exchange.isSome ∧ st.trading_pair.isSome ∧ st.quantity.isSome ∧ st.price.isSome

lemma applySlots_messages (st : SessionState) (corr : Bool) (e s : Option Str)
    (q p : Option ℚ) : ((applySlots st corr e s q p).1).messages = st.messages := by
  simp [applySlots]

lemma applySlots_ended (st : SessionState) (corr : Bool) (e s : Option Str)
    (q p : Option ℚ) : ((applySlots st corr e s q p).1).ended = st.ended := by
  simp [applySlots]

lemma applySlots_retry (st : SessionState) (corr : Bool) (e s : Option Str)
    (q p : Option ℚ) : ((applySlots st corr e s q p).1).retry_count = st.retry_count := by
  simp [applySlots]

lemma applySlots_exchange (st : SessionState) (corr : Bool) (e s : Option Str)
    (q p : Option ℚ) :
    ((applySlots st corr e s q p).1).exchange =
      if (if corr then pyTruthyStr e else st.exchange.isNone && pyTruthyStr e) then e
      else st.exchange := by
  simp [applySlots]

lemma applySlots_trading_pair (st : SessionState) (corr : Bool) (e s : Option Str)
    (q p : Option ℚ) :
    ((applySlots st corr e s q p).1).trading_pair =
      if (if corr then pyTruthyStr s else st.trading_pair.isNone && pyTruthyStr s) then s
      else st.trading_pair := by
  simp [applySlots]

lemma applySlots_quantity (st : SessionState) (corr : Bool) (e s : Option Str)
    (q p : Option ℚ) :
    ((applySlots st corr e s q p).1).quantity =
      if (if corr then q.isSome else st.quantity.isNone && q.isSome) then q
      else st.quantity := by
  simp [applySlots]

lemma applySlots_price (st : SessionState) (corr : Bool) (e s : Option Str)
    (q p : Option ℚ) :
    ((applySlots st corr e s q p).1).price =
      if (if corr then p.isSome else st.price.isNone && p.isSome) then p
      else st.price := by
  simp [applySlots]

lemma applySlots_snd_nil (st : SessionState) (corr : Bool) (e s : Option Str)
    (q p : Option ℚ) (h : (applySlots st corr e s q p).2 = []) :
    (applySlots st corr e s q p).1 = st := by
  simp only [applySlots, List.append_eq_nil] at h
  obtain ⟨⟨⟨h1, h2⟩, h3⟩, h4⟩ := h
  simp only [applySlots]
  split at h1 <;> split at h2 <;> split at h3 <;> split at h4 <;> simp_all
  have e1 : ¬(st.exchange = none ∧ pyTruthyStr e = true) := by
    rintro ⟨hn, ht⟩; simp [h1 hn] at ht
  have e2 : ¬(st.trading_pair = none ∧ pyTruthyStr s = true) := by
    rintro ⟨hn, ht⟩; simp [h2 hn] at ht
  have e3 : ¬(st.quantity = none ∧ q.isSome = true) := by
    rintro ⟨hn, ht⟩; simp [h3 hn] at ht
  have e4 : ¬(st.price = none ∧ p.isSome = true) := by
    rintro ⟨hn, ht⟩; simp [h4 hn] at ht
  rw [if_neg e1, if_neg e2, if_neg e3, if_neg e4]

lemma gcp_three (fetch : Nat → Option ℚ) : ∃ r, get_current_price fetch 3 1 = some r := by
  unfold get_current_price
  have : List.range 3 = [0, 1, 2] := by decide
  rw [this]
  cases h0 : fetch 0 <;> cases h1 : fetch 1 <;> cases h2 : fetch 2 <;>
    simp [gcpLoop, h0, h1, h2]

lemma finalizeTurn_exchange (st2 : SessionState) (f : Nat → Option ℚ) (now : Str) :
    ((finalizeTurn st2 f now).1).exchange = st2.exchange := by
  unfold finalizeTurn
  cases h : get_current_price f 3 1 <;> simp [addMsg]

lemma finalizeTurn_trading_pair (st2 : SessionState) (f : Nat → Option ℚ) (now : Str) :
    ((finalizeTurn st2 f now).1).trading_pair = st2.trading_pair := by
  unfold finalizeTurn
  cases h : get_current_price f 3 1 <;> simp [addMsg]

lemma finalizeTurn_quantity (st2 : SessionState) (f : Nat → Option ℚ) (now : Str) :
    ((finalizeTurn st2 f now).1).quantity = st2.quantity := by
  unfold finalizeTurn
  cases h : get_current_price f 3 1 <;> simp [addMsg]

lemma finalizeTurn_price (st2 : SessionState) (f : Nat → Option ℚ) (now : Str) :
    ((finalizeTurn st2 f now).1).price = st2.price := by
  unfold finalizeTurn
  cases h : get_current_price f 3 1 <;> simp [addMsg]

lemma promptTurn_exchange (st2 : SessionState) (u : List Str) (n : Slot) (now : Str) :
    ((promptTurn st2 u n now).1).exchange = st2.exchange := by
  simp [promptTurn, addMsg]

lemma promptTurn_trading_pair (st2 : SessionState) (u : List Str) (n : Slot) (now : Str) :
    ((promptTurn st2 u n now).1).trading_pair = st2.trading_pair := by
  simp [promptTurn, addMsg]

lemma promptTurn_quantity (st2 : SessionState) (u : List Str) (n : Slot) (now : Str) :
    ((promptTurn st2 u n now).1).quantity = st2.quantity := by
  simp [promptTurn, addMsg]

lemma promptTurn_price (st2 : SessionState) (u : List Str) (n : Slot) (now : Str) :
    ((promptTurn st2 u n now).1).price = st2.price := by
  simp [promptTurn, addMsg]

lemma promptTurn_ended (st2 : SessionState) (u : List Str) (n : Slot) (now : Str) :
    ((promptTurn st2 u n now).1).ended = st2.ended := by
  simp [promptTurn, addMsg]

lemma turnApply_messages (st : SessionState) (t : Str) (w : Str → Option ℚ) :
    ((turnApply st t w).1).messages = st.messages := by
  simp [turnApply, applySlots_messages]

lemma turnApply_ended (st : SessionState) (t : Str) (w : Str → Option ℚ) :
    ((turnApply st t w).1).ended = st.ended := by
  simp [turnApply, applySlots_ended]

lemma turnApply_retry (st : SessionState) (t : Str) (w : Str → Option ℚ) :
    ((turnApply st t w).1).retry_count = st.retry_count := by
  simp [turnApply, applySlots_retry]

lemma promptTurn_messages (st2 : SessionState) (u : List Str) (n : Slot) (now : Str) :
    ((promptTurn st2 u n now).1).messages =
      st2.messages ++ [⟨strL ("bot"), promptResponse st2 u n, now⟩] := by
  simp [promptTurn, addMsg]

lemma promptTurn_snd (st2 : SessionState) (u : List Str) (n : Slot) (now : Str) :
    (promptTurn st2 u n now).2 = Except.ok (promptResponse st2 u n) := rfl

lemma promptTurn_retry (st2 : SessionState) (u : List Str) (n : Slot) (now : Str) :
    ((promptTurn st2 u n now).1).retry_count =
      if u.isEmpty then st2.retry_count + 1 else st2.retry_count := by
  simp [promptTurn, addMsg]

lemma promptTurn_step (st2 : SessionState) (u : List Str) (n : Slot) (now : Str) :
    ((promptTurn st2 u n now).1).current_step = n := by
  simp [promptTurn, addMsg]

lemma finalizeTurn_some (st2 : SessionState) (f : Nat → Option ℚ) (now : Str)
    (r : (Option ℚ × Option Str) × List Nat) (hr : get_current_price f 3 1 = some r) :
    finalizeTurn st2 f now =
      (addMsg { st2 with ended := true, retry_count := 0 } (strL ("bot"))
        (confirmMsg st2 r.1.1 r.1.2) now, Except.ok (confirmMsg st2 r.1.1 r.1.2)) := by
  simp [finalizeTurn, hr]

/-! ### The claims -/

/-- C3: once a session is ended, a further `submit_utterance` turn returns the
`Session has ended` error and leaves the whole session state unchanged. -/
theorem c3_ended_rejects (st : SessionState) (rawT : Str) (tsOpt : Option Str)
    (now : Str) (w : Str → Option ℚ) (f : Nat → Option ℚ) (h : st.ended = true) :
    webhook st rawT tsOpt now w f = (st, Except.error sessionEndedErr) := by
  simp [webhook, h]

/-- Witness for C3 at a concrete ended session. -/
theorem c3_witness :
    webhook (end_call (start_call [] 0)).1 (strL ("btc")) none [] w2n_none fetch_fail =
      ((end_call (start_call [] 0)).1, Except.error sessionEndedErr) :=
  c3_ended_rejects (end_call (start_call [] 0)).1 (strL ("btc")) none [] w2n_none
    fetch_fail rfl

/-- C4: a rejected turn leaves the history unchanged; an accepted turn appends
exactly one user entry followed by one bot entry; `end_call` leaves the history
unchanged.  In particular history length never decreases and existing entries
are never removed or reordered. -/
theorem c4_history (st : SessionState) (rawT : Str) (tsOpt : Option Str) (now : Str)
    (w : Str → Option ℚ) (f : Nat → Option ℚ) :
    (st.ended = true → ((webhook st rawT tsOpt now w f).1).messages = st.messages) ∧
    (st.ended = false → ∃ bot, ((webhook st rawT tsOpt now w f).1).messages =
      st.messages ++ [⟨strL ("user"), pyStrip rawT, tsOpt.getD now⟩, ⟨strL ("bot"), bot, now⟩]) ∧
    ((end_call st).1).messages = st.messages := by
  refine ⟨fun h => by simp [webhook, h], fun h => ?_, by simp [end_call]⟩
  obtain ⟨r, hr⟩ := gcp_three f
  simp only [webhook, h, Bool.false_eq_true, if_false]
  cases hm : missingOf ((turnApply (addMsg st (strL ("user")) (pyStrip rawT)
      (tsOpt.getD now)) (pyStrip rawT) w).1) with
  | nil =>
    refine ⟨confirmMsg ((turnApply (addMsg st (strL ("user")) (pyStrip rawT)
      (tsOpt.getD now)) (pyStrip rawT) w).1) r.1.1 r.1.2, ?_⟩
    rw [finalizeTurn_some _ f now r hr]
    simp [addMsg, turnApply_messages]
  | cons n rest =>
    refine ⟨promptResponse ((turnApply (addMsg st (strL ("user")) (pyStrip rawT)
      (tsOpt.getD now)) (pyStrip rawT) w).1) ((turnApply (addMsg st (strL ("user"))
      (pyStrip rawT) (tsOpt.getD now)) (pyStrip rawT) w).2) n, ?_⟩
    rw [promptTurn_messages]
    simp [addMsg, turnApply_messages]

/-- Witness for C4 at a concrete accepted turn. -/
theorem c4_witness :
    ∃ bot, ((webhook (start_call [] 0) (strL ("hello")) none [] w2n_none fetch_fail).1).messages =
      (start_call [] 0).messages ++
        [⟨strL ("user"), pyStrip (strL ("hello")), (none : Option Str).getD []⟩,
         ⟨strL ("bot"), bot, []⟩] :=
  (c4_history (start_call [] 0) (strL ("hello")) none [] w2n_none fetch_fail).2.1 rfl

lemma webhook_char_exchange (st : SessionState) (rawT : Str) (tsOpt : Option Str)
    (now : Str) (w : Str → Option ℚ) (f : Nat → Option ℚ) (hend : st.ended = false) :
    ((webhook st rawT tsOpt now w f).1).exchange =
      if (if isCorrectionB (pyStrip rawT) then pyTruthyStr (extract_exchange (pyStrip rawT))
          else st.exchange.isNone && pyTruthyStr (extract_exchange (pyStrip rawT)))
      then extract_exchange (pyStrip rawT) else st.exchange := by
  simp only [webhook, hend, Bool.false_eq_true, if_false]
  cases hm : missingOf ((turnApply (addMsg st (strL ("user")) (pyStrip rawT)
      (tsOpt.getD now)) (pyStrip rawT) w).1) with
  | nil => rw [finalizeTurn_exchange]; simp [turnApply, applySlots_exchange, addMsg]
  | cons n rest => rw [promptTurn_exchange]; simp [turnApply, applySlots_exchange, addMsg]

lemma webhook_char_trading_pair (st : SessionState) (rawT : Str) (tsOpt : Option Str)
    (now : Str) (w : Str → Option ℚ) (f : Nat → Option ℚ) (hend : st.ended = false) :
    ((webhook st rawT tsOpt now w f).1).trading_pair =
      if (if isCorrectionB (pyStrip rawT) then pyTruthyStr (extract_trading_pair (pyStrip rawT))
          else st.trading_pair.isNone && pyTruthyStr (extract_trading_pair (pyStrip rawT)))
      then extract_trading_pair (pyStrip rawT) else st.trading_pair := by
  simp only [webhook, hend, Bool.false_eq_true, if_false]
  cases hm : missingOf ((turnApply (addMsg st (strL ("user")) (pyStrip rawT)
      (tsOpt.getD now)) (pyStrip rawT) w).1) with
  | nil => rw [finalizeTurn_trading_pair]; simp [turnApply, applySlots_trading_pair, addMsg]
  | cons n rest => rw [promptTurn_trading_pair]; simp [turnApply, applySlots_trading_pair, addMsg]

lemma webhook_char_quantity (st : SessionState) (rawT : Str) (tsOpt : Option Str)
    (now : Str) (w : Str → Option ℚ) (f : Nat → Option ℚ) (hend : st.ended = false) :
    ((webhook st rawT tsOpt now w f).1).quantity =
      if (if isCorrectionB (pyStrip rawT) then (qtyCand w (pyStrip rawT)).isSome
          else st.quantity.isNone && (qtyCand w (pyStrip rawT)).isSome)
      then qtyCand w (pyStrip rawT) else st.quantity := by
  simp only [webhook, hend, Bool.false_eq_true, if_false]
  cases hm : missingOf ((turnApply (addMsg st (strL ("user")) (pyStrip rawT)
      (tsOpt.getD now)) (pyStrip rawT) w).1) with
  | nil => rw [finalizeTurn_quantity]; simp [turnApply, applySlots_quantity, addMsg]
  | cons n rest => rw [promptTurn_quantity]; simp [turnApply, applySlots_quantity, addMsg]

lemma webhook_char_price (st : SessionState) (rawT : Str) (tsOpt : Option Str)
    (now : Str) (w : Str → Option ℚ) (f : Nat → Option ℚ) (hend : st.ended = false) :
    ((webhook st rawT tsOpt now w f).1).price =
      if (if isCorrectionB (pyStrip rawT) then (priceCand w st.quantity (pyStrip rawT)).isSome
          else st.price.isNone && (priceCand w st.quantity (pyStrip rawT)).isSome)
      then priceCand w st.quantity (pyStrip rawT) else st.price := by
  simp only [webhook, hend, Bool.false_eq_true, if_false]
  cases hm : missingOf ((turnApply (addMsg st (strL ("user")) (pyStrip rawT)
      (tsOpt.getD now)) (pyStrip rawT) w).1) with
  | nil => rw [finalizeTurn_price]; simp [turnApply, applySlots_price, addMsg]
  | cons n rest => rw [promptTurn_price]; simp [turnApply, applySlots_price, addMsg]

/-- C1: on an accepted turn of a live session, a non-correction turn preserves
every slot that is already set and only fills unset slots with the extracted
candidates; a correction turn overwrites every slot whose candidate is truthy,
even if it was already set. -/
theorem c1_slot_resolution (st : SessionState) (rawT : Str) (tsOpt : Option Str)
    (now : Str) (w : Str → Option ℚ) (f : Nat → Option ℚ) (hend : st.ended = false) :
    (isCorrectionB (pyStrip rawT) = false →
      (∀ e, st.exchange = some e → ((webhook st rawT tsOpt now w f).1).exchange = some e) ∧
      (∀ s, st.trading_pair = some s → ((webhook st rawT tsOpt now w f).1).trading_pair = some s) ∧
      (∀ q, st.quantity = some q → ((webhook st rawT tsOpt now w f).1).quantity = some q) ∧
      (∀ p, st.price = some p → ((webhook st rawT tsOpt now w f).1).price = some p) ∧
      (((webhook st rawT tsOpt now w f).1).exchange ≠ st.exchange →
        st.exchange = none ∧
        ((webhook st rawT tsOpt now w f).1).exchange = extract_exchange (pyStrip rawT)) ∧
      (((webhook st rawT tsOpt now w f).1).trading_pair ≠ st.trading_pair →
        st.trading_pair = none ∧
        ((webhook st rawT tsOpt now w f).1).trading_pair = extract_trading_pair (pyStrip rawT)) ∧
      (((webhook st rawT tsOpt now w f).1).quantity ≠ st.quantity →
        st.quantity = none ∧
        ((webhook st rawT tsOpt now w f).1).quantity = qtyCand w (pyStrip rawT)) ∧
      (((webhook st rawT tsOpt now w f).1).price ≠ st.price →
        st.price = none ∧
        ((webhook st rawT tsOpt now w f).1).price = priceCand w st.quantity (pyStrip rawT))) ∧
    (isCorrectionB (pyStrip rawT) = true →
      (pyTruthyStr (extract_exchange (pyStrip rawT)) = true →
        ((webhook st rawT tsOpt now w f).1).exchange = extract_exchange (pyStrip rawT)) ∧
      (pyTruthyStr (extract_trading_pair (pyStrip rawT)) = true →
        ((webhook st rawT tsOpt now w f).1).trading_pair = extract_trading_pair (pyStrip rawT)) ∧
      ((qtyCand w (pyStrip rawT)).isSome = true →
        ((webhook st rawT tsOpt now w f).1).quantity = qtyCand w (pyStrip rawT)) ∧
      ((priceCand w st.quantity (pyStrip rawT)).isSome = true →
        ((webhook st rawT tsOpt now w f).1).price = priceCand w st.quantity (pyStrip rawT))) := by
  rw [webhook_char_exchange st rawT tsOpt now w f hend,
      webhook_char_trading_pair st rawT tsOpt now w f hend,
      webhook_char_quantity st rawT tsOpt now w f hend,
      webhook_char_price st rawT tsOpt now w f hend]
  constructor
  · intro hc
    rw [hc]
    refine ⟨?_, ?_, ?_, ?_, ?_, ?_, ?_, ?_⟩
    · intro e he; rw [he]; simp
    · intro s hs; rw [hs]; simp
    · intro q hq; rw [hq]; simp
    · intro p hp; rw [hp]; simp
    · intro hne
      rcases hx : st.exchange with _ | e
      · rw [hx] at hne
        refine ⟨rfl, ?_⟩
        by_cases ht : pyTruthyStr (extract_exchange (pyStrip rawT)) = true
        · simp [ht]
        · rw [Bool.not_eq_true] at ht; simp [ht] at hne
      · rw [hx] at hne; simp at hne
    · intro hne
      rcases hx : st.trading_pair with _ | s
      · rw [hx] at hne
        refine ⟨rfl, ?_⟩
        by_cases ht : pyTruthyStr (extract_trading_pair (pyStrip rawT)) = true
        · simp [ht]
        · rw [Bool.not_eq_true] at ht; simp [ht] at hne
      · rw [hx] at hne; simp at hne
    · intro hne
      rcases hx : st.quantity with _ | q
      · rw [hx] at hne
        refine ⟨rfl, ?_⟩
        by_cases ht : (qtyCand w (pyStrip rawT)).isSome = true
        · simp [ht]
        · rw [Bool.not_eq_true] at ht; simp [ht] at hne
      · rw [hx] at hne; simp at hne
    · intro hne
      rcases hx : st.price with _ | p
      · rw [hx] at hne
        refine ⟨rfl, ?_⟩
        by_cases ht : (priceCand w st.quantity (pyStrip rawT)).isSome = true
        · simp [ht]
        · rw [Bool.not_eq_true] at ht; simp [ht] at hne
      · rw [hx] at hne; simp at hne
  · intro hc
    rw [hc]
    refine ⟨fun ht => by simp [ht], fun ht => by simp [ht], fun ht => by simp [ht],
      fun ht => by simp [ht]⟩

/-- Witness for C1: a correction turn overwrites an already-set trading pair. -/
theorem c1_witness :
    ((webhook { start_call [] 0 with trading_pair := some (strL ("BTC/USDT")) }
        (strL ("actually eth/usdt")) none [] w2n_none fetch_fail).1).trading_pair =
      extract_trading_pair (pyStrip (strL ("actually eth/usdt"))) :=
  ((c1_slot_resolution { start_call [] 0 with trading_pair := some (strL ("BTC/USDT")) }
      (strL ("actually eth/usdt")) none [] w2n_none fetch_fail rfl).2 (by decide)).2.1
    (by decide)

lemma addMsg_ended (st : SessionState) (a b c : Str) : (addMsg st a b c).ended = st.ended :=
  rfl

lemma missingOf_nil (st : SessionState) (h : missingOf st = []) : allSlotsSet st := by
  simp only [missingOf, slotOrder, List.filter_eq_nil_iff] at h
  refine ⟨?_, ?_, ?_, ?_⟩
  · have hx := h Slot.exchange (by simp)
    cases he : st.exchange
    · exact absurd (by simp [slotIsNone, he]) hx
    · simp
  · have hx := h Slot.trading_pair (by simp)
    cases he : st.trading_pair
    · exact absurd (by simp [slotIsNone, he]) hx
    · simp
  · have hx := h Slot.quantity (by simp)
    cases he : st.quantity
    · exact absurd (by simp [slotIsNone, he]) hx
    · simp
  · have hx := h Slot.price (by simp)
    cases he : st.price
    · exact absurd (by simp [slotIsNone, he]) hx
    · simp

lemma webhook_ended_cases (st : SessionState) (rawT : Str) (tsOpt : Option Str)
    (now : Str) (w : Str → Option ℚ) (f : Nat → Option ℚ) (hend : st.ended = false) :
    ((webhook st rawT tsOpt now w f).1).ended = false ∨
      allSlotsSet (webhook st rawT tsOpt now w f).1 := by
  simp only [webhook, hend, Bool.false_eq_true, if_false]
  cases hm : missingOf ((turnApply (addMsg st (strL ("user")) (pyStrip rawT)
      (tsOpt.getD now)) (pyStrip rawT) w).1) with
  | nil =>
    right
    have h2 := missingOf_nil _ hm
    exact ⟨by rw [finalizeTurn_exchange]; exact h2.1,
      by rw [finalizeTurn_trading_pair]; exact h2.2.1,
      by rw [finalizeTurn_quantity]; exact h2.2.2.1,
      by rw [finalizeTurn_price]; exact h2.2.2.2⟩
  | cons n rest =>
    left
    rw [promptTurn_ended, turnApply_ended, addMsg_ended, hend]

/-- States reachable through session creation and `submit_utterance` turns only. -/
inductive ReachableSubmit : SessionState → Prop
  | start (now : Str) (t : ℚ) : ReachableSubmit (start_call now t)
  | step (st : SessionState) (rawT : Str) (tsOpt : Option Str) (now : Str)
      (w : Str → Option ℚ) (f : Nat → Option ℚ) : ReachableSubmit st →
      ReachableSubmit (webhook st rawT tsOpt now w f).1

/-- States reachable through creation, `submit_utterance` turns, and `end_call`. -/
inductive Reachable : SessionState → Prop
  | start (now : Str) (t : ℚ) : Reachable (start_call now t)
  | step (st : SessionState) (rawT : Str) (tsOpt : Option Str) (now : Str)
      (w : Str → Option ℚ) (f : Nat → Option ℚ) : Reachable st →
      Reachable (webhook st rawT tsOpt now w f).1
  | ending (st : SessionState) : Reachable st → Reachable (end_call st).1

/-- C2 counterexample: `end_call` yields a reachable state with `ended = true`
and all slots unset, so `ended = true` does not imply all four slots are set. -/
theorem c2_counterexample :
    Reachable (end_call (start_call [] 0)).1 ∧
    ((end_call (start_call [] 0)).1).ended = true ∧
    ((end_call (start_call [] 0)).1).exchange = none :=
  ⟨Reachable.ending _ (Reachable.start [] 0), rfl, rfl⟩

/-- C2 (amended): in every session reachable without `end_call`, `ended = true`
implies all four slots are set; finalization happens exactly on the turn that
fills the last slot and is never re-entered (an ended session rejects turns
without any state change). -/
theorem c2_amended (st : SessionState) (h : ReachableSubmit st) :
    st.ended = true → allSlotsSet st := by
  induction h with
  | start now t => intro he; simp [start_call] at he
  | step st rawT tsOpt now w f hr ih =>
    intro he
    cases hst : st.ended
    · rcases webhook_ended_cases st rawT tsOpt now w f hst with hf | ha
      · rw [he] at hf; cases hf
      · exact ha
    · have heq : webhook st rawT tsOpt now w f = (st, Except.error sessionEndedErr) := by
        simp [webhook, hst]
      rw [heq] at he ⊢
      exact ih he

/-- A concrete conversation: one utterance filling exchange, pair, and quantity. -/
def traceState1 : SessionState :=
  (webhook (start_call [] 0) (strL ("actually binance btc/usdt 5")) none []
    w2n_none (fetch_const 100)).1

/-- The same conversation after a second utterance filling the price, which
finalizes the session. -/
def traceState2 : SessionState :=
  (webhook traceState1 (strL ("at 20")) none [] w2n_none (fetch_const 100)).1

/-- Witness for C2 (amended): the concrete finalized trace has `ended = true`
and all slots set. -/
theorem c2_witness : traceState2.ended = true ∧ allSlotsSet traceState2 :=
  ⟨by decide,
    c2_amended traceState2
      (ReachableSubmit.step _ _ _ _ _ _
        (ReachableSubmit.step _ _ _ _ _ _ (ReachableSubmit.start [] 0)))
      (by decide)⟩

lemma addMsg_retry (st : SessionState) (a b c : Str) :
    (addMsg st a b c).retry_count = st.retry_count := rfl

lemma addMsg_exchange (st : SessionState) (a b c : Str) :
    (addMsg st a b c).exchange = st.exchange := rfl

lemma addMsg_trading_pair (st : SessionState) (a b c : Str) :
    (addMsg st a b c).trading_pair = st.trading_pair := rfl

lemma addMsg_quantity (st : SessionState) (a b c : Str) :
    (addMsg st a b c).quantity = st.quantity := rfl

lemma addMsg_price (st : SessionState) (a b c : Str) :
    (addMsg st a b c).price = st.price := rfl

/-- A session after one turn that extracts nothing. -/
def sHello1 : SessionState :=
  (webhook (start_call [] 0) (strL ("hello")) none [] w2n_none fetch_fail).1

/-- After a second turn extracting nothing (retry count 2). -/
def sHello2 : SessionState :=
  (webhook sHello1 (strL ("hello")) none [] w2n_none fetch_fail).1

/-- After a third turn that sets the exchange, advancing the step. -/
def sAfterBinance : SessionState :=
  (webhook sHello2 (strL ("binance")) none [] w2n_none fetch_fail).1

/-- C6 counterexample: when the step advances from `exchange` to
`trading_pair`, the retry counter keeps its value 2 instead of resetting to 0. -/
theorem c6_counterexample :
    sHello2.retry_count = 2 ∧ sHello2.current_step = Slot.exchange ∧
    sAfterBinance.current_step = Slot.trading_pair ∧ sAfterBinance.retry_count = 2 :=
  ⟨by decide, by decide, by decide, by decide⟩

/-- C6 (amended): on an accepted turn, the retry counter resets to 0 exactly
when the session finalizes; on a non-finalizing turn it increments exactly when
no slot value was added (in which case all slots are unchanged), and is left
untouched — not reset — when a slot update advances the step. -/
theorem c6_amended (st : SessionState) (rawT : Str) (tsOpt : Option Str) (now : Str)
    (w : Str → Option ℚ) (f : Nat → Option ℚ) (hend : st.ended = false) :
    (((webhook st rawT tsOpt now w f).1).ended = true →
      ((webhook st rawT tsOpt now w f).1).retry_count = 0) ∧
    (((webhook st rawT tsOpt now w f).1).ended = false →
      (((turnApply (addMsg st (strL ("user")) (pyStrip rawT) (tsOpt.getD now))
            (pyStrip rawT) w).2 = [] →
          ((webhook st rawT tsOpt now w f).1).retry_count = st.retry_count + 1 ∧
          ((webhook st rawT tsOpt now w f).1).exchange = st.exchange ∧
          ((webhook st rawT tsOpt now w f).1).trading_pair = st.trading_pair ∧
          ((webhook st rawT tsOpt now w f).1).quantity = st.quantity ∧
          ((webhook st rawT tsOpt now w f).1).price = st.price) ∧
        ((turnApply (addMsg st (strL ("user")) (pyStrip rawT) (tsOpt.getD now))
            (pyStrip rawT) w).2 ≠ [] →
          ((webhook st rawT tsOpt now w f).1).retry_count = st.retry_count))) := by
  obtain ⟨r, hr⟩ := gcp_three f
  simp only [webhook, hend, Bool.false_eq_true, if_false]
  cases hm : missingOf ((turnApply (addMsg st (strL ("user")) (pyStrip rawT)
      (tsOpt.getD now)) (pyStrip rawT) w).1) with
  | nil =>
    rw [finalizeTurn_some _ f now r hr]
    exact ⟨fun _ => by simp [addMsg], fun hfalse => by simp [addMsg] at hfalse⟩
  | cons n rest =>
    have hd : ((promptTurn ((turnApply (addMsg st (strL ("user")) (pyStrip rawT)
        (tsOpt.getD now)) (pyStrip rawT) w).1) ((turnApply (addMsg st (strL ("user"))
        (pyStrip rawT) (tsOpt.getD now)) (pyStrip rawT) w).2) n now).1).ended = false := by
      rw [promptTurn_ended, turnApply_ended, addMsg_ended, hend]
    refine ⟨?_, fun _ => ⟨fun hu => ?_, fun hu => ?_⟩⟩
    · intro he
      rw [hd] at he
      cases he
    · have h1 : (turnApply (addMsg st (strL ("user")) (pyStrip rawT) (tsOpt.getD now))
          (pyStrip rawT) w).1 = addMsg st (strL ("user")) (pyStrip rawT) (tsOpt.getD now) := by
        simp only [turnApply] at hu ⊢
        exact applySlots_snd_nil _ _ _ _ _ _ hu
      refine ⟨?_, ?_, ?_, ?_, ?_⟩
      · rw [promptTurn_retry, hu]
        simp [turnApply_retry, addMsg_retry]
      · rw [promptTurn_exchange, h1, addMsg_exchange]
      · rw [promptTurn_trading_pair, h1, addMsg_trading_pair]
      · rw [promptTurn_quantity, h1, addMsg_quantity]
      · rw [promptTurn_price, h1, addMsg_price]
    · rw [promptTurn_retry]
      have hne : ((turnApply (addMsg st (strL ("user")) (pyStrip rawT) (tsOpt.getD now))
          (pyStrip rawT) w).2).isEmpty = false := by
        cases hc : (turnApply (addMsg st (strL ("user")) (pyStrip rawT) (tsOpt.getD now))
            (pyStrip rawT) w).2 with
        | nil => exact absurd hc hu
        | cons a l => rfl
      rw [hne]
      simp [turnApply_retry, addMsg_retry]

/-- Witness for C6 (amended) at a concrete no-update turn. -/
theorem c6_witness :
    ((webhook sHello1 (strL ("hello")) none [] w2n_none fetch_fail).1).retry_count =
        sHello1.retry_count + 1 ∧
      ((webhook sHello1 (strL ("hello")) none [] w2n_none fetch_fail).1).exchange =
        sHello1.exchange ∧
      ((webhook sHello1 (strL ("hello")) none [] w2n_none fetch_fail).1).trading_pair =
        sHello1.trading_pair ∧
      ((webhook sHello1 (strL ("hello")) none [] w2n_none fetch_fail).1).quantity =
        sHello1.quantity ∧
      ((webhook sHello1 (strL ("hello")) none [] w2n_none fetch_fail).1).price =
        sHello1.price :=
  (((c6_amended sHello1 (strL ("hello")) none [] w2n_none fetch_fail (by decide)).2
      (by decide)).1) (by decide)

lemma pyStrip_space_cons (p : Str) : pyStrip (' ' :: p) = pyStrip p := by
  unfold pyStrip
  rw [List.dropWhile_cons]
  simp [isPySpace]

lemma pyStrip_eq_self (a : Char) (t : Str) (d : Char) (ha : isPySpace a = false)
    (hd : (a :: t).getLast? = some d) (hdn : isPySpace d = false) :
    pyStrip (a :: t) = a :: t := by
  unfold pyStrip
  rw [List.dropWhile_cons, ha]
  simp only [Bool.false_eq_true, if_false]
  rcases hr : (a :: t).reverse with _ | ⟨x, xs⟩
  · exact absurd (congrArg List.length hr) (by simp)
  · have hx : x = d := by
      have h2 := List.head?_reverse (a :: t)
      rw [hr, hd] at h2
      injection h2
    subst hx
    rw [List.dropWhile_cons, hdn]
    simp only [Bool.false_eq_true, if_false]
    rw [← hr, List.reverse_reverse]

lemma promptFor_facts (s : Slot) (pair : Option Str) (i : Nat) :
    ∃ a t, promptFor s pair i = a :: t ∧ isPySpace a = false ∧ a ≠ 'S' ∧
      ∃ d, (promptFor s pair i).getLast? = some d ∧ isPySpace d = false := by
  cases s with
  | exchange =>
    rcases i with _ | _ | n
    · exact ⟨'P', strL ("lease choose an exchange: OKX, Bybit, Deribit, or Binance."),
        rfl, by decide, by decide, '.', rfl, by decide⟩
    · exact ⟨'W', strL ("hich exchange? Say OKX, Bybit, Deribit, or Binance."),
        rfl, by decide, by decide, '.', rfl, by decide⟩
    · exact ⟨'E', strL ("xchange name, please (e.g., OKX)."),
        rfl, by decide, by decide, '.', rfl, by decide⟩
  | trading_pair =>
    rcases i with _ | _ | n
    · exact ⟨'W', strL ("hat trading pair would you like? (e.g., BTC/USDT)"),
        rfl, by decide, by decide, ')', rfl, by decide⟩
    · exact ⟨'P', strL ("lease specify the trading pair, like ETH/USDT."),
        rfl, by decide, by decide, '.', rfl, by decide⟩
    · exact ⟨'T', strL ("rading pair? (e.g., BTC/USDT)"),
        rfl, by decide, by decide, ')', rfl, by decide⟩
  | quantity =>
    rcases i with _ | _ | n
    · refine ⟨'H', strL ("ow many units of ") ++ optStrPy pair ++ strL ("?"),
        rfl, by decide, by decide, '?', ?_, by decide⟩
      exact List.getLast?_concat _
    · refine ⟨'N', strL ("umber of ") ++ optStrPy pair ++ strL (" units, please."),
        rfl, by decide, by decide, '.', ?_, by decide⟩
      show ((strL ("Number of ") ++ optStrPy pair) ++ strL (" units, please.")).getLast? =
        some '.'
      rw [List.getLast?_append_of_ne_nil _ (by decide)]
      decide
    · refine ⟨'Q', strL ("uantity for ") ++ optStrPy pair ++ strL ("?"),
        rfl, by decide, by decide, '?', ?_, by decide⟩
      exact List.getLast?_concat _
  | price =>
    rcases i with _ | _ | n
    · exact ⟨'A', strL ("t what price? Just say the number."),
        rfl, by decide, by decide, '.', rfl, by decide⟩
    · exact ⟨'P', strL ("lease say the price (e.g., 2000)."),
        rfl, by decide, by decide, '.', rfl, by decide⟩
    · exact ⟨'P', strL ("rice?"),
        rfl, by decide, by decide, '?', rfl, by decide⟩

lemma promptResponse_shape (st2 : SessionState) (u : List Str) (n : Slot) :
    promptResponse st2 u n ≠ fallbackResponse ∧
    ∃ i pre, i ≤ 2 ∧ promptResponse st2 u n = pre ++ promptFor n st2.trading_pair i := by
  cases hu : u with
  | nil =>
    have hidx : 0 < min (st2.retry_count + 1) 2 :=
      Nat.lt_min.mpr ⟨Nat.succ_pos _, by norm_num⟩
    have hresp : promptResponse st2 [] n =
        pyStrip (' ' :: promptFor n st2.trading_pair (min (st2.retry_count + 1) 2)) := by
      simp only [promptResponse, List.isEmpty_nil, if_true, Bool.not_true,
        Bool.false_eq_true, if_false, List.isEmpty_eq_true, List.nil_append]
      rw [if_pos]
      simp only [Bool.false_or, decide_eq_true_eq]
      exact hidx
    obtain ⟨a, t, hat, hans, hanS, d, hd, hdn⟩ :=
      promptFor_facts n st2.trading_pair (min (st2.retry_count + 1) 2)
    have hstrip : pyStrip (' ' :: promptFor n st2.trading_pair
        (min (st2.retry_count + 1) 2)) = promptFor n st2.trading_pair
          (min (st2.retry_count + 1) 2) := by
      rw [pyStrip_space_cons, hat]
      exact pyStrip_eq_self a t d hans (hat ▸ hd) hdn
    constructor
    · rw [hresp, hstrip, hat]
      intro hcontra
      have : a = 'S' := by injection hcontra
      exact hanS this
    · exact ⟨min (st2.retry_count + 1) 2, [], Nat.min_le_right _ _,
        by rw [hresp, hstrip]; simp⟩
  | cons x xs =>
    have hresp : promptResponse st2 (x :: xs) n =
        pyStrip ((strL ("Got it, updated ") ++ joinAnd (x :: xs) ++ strL (".")) ++
          ' ' :: promptFor n st2.trading_pair (min st2.retry_count 2)) := by
      simp only [promptResponse, List.isEmpty_cons, Bool.not_false, Bool.false_eq_true,
        if_false, if_true]
      rw [if_pos]
      rfl
    obtain ⟨a, t, hat, hans, hanS, d, hd, hdn⟩ :=
      promptFor_facts n st2.trading_pair (min st2.retry_count 2)
    have hcons : (strL ("Got it, updated ") ++ joinAnd (x :: xs) ++ strL (".")) ++
        ' ' :: promptFor n st2.trading_pair (min st2.retry_count 2) =
        'G' :: ((strL ("ot it, updated ") ++ joinAnd (x :: xs) ++ strL (".")) ++
          ' ' :: promptFor n st2.trading_pair (min st2.retry_count 2)) := rfl
    have hlast : ((strL ("Got it, updated ") ++ joinAnd (x :: xs) ++ strL (".")) ++
        ' ' :: promptFor n st2.trading_pair (min st2.retry_count 2)).getLast? = some d := by
      rw [List.getLast?_append_of_ne_nil _ (by simp), List.getLast?_cons, hat,
        List.getLast?_cons]
      rw [hat] at hd
      rw [List.getLast?_cons] at hd
      exact hd
    have hstrip : pyStrip ((strL ("Got it, updated ") ++ joinAnd (x :: xs) ++ strL (".")) ++
        ' ' :: promptFor n st2.trading_pair (min st2.retry_count 2)) =
        (strL ("Got it, updated ") ++ joinAnd (x :: xs) ++ strL (".")) ++
          ' ' :: promptFor n st2.trading_pair (min st2.retry_count 2) := by
      rw [hcons]
      exact pyStrip_eq_self _ _ d (by decide) (hcons ▸ hlast) hdn
    constructor
    · rw [hresp, hstrip, hcons]
      intro hcontra
      have : 'G' = 'S' := by injection hcontra
      exact absurd this (by decide)
    · refine ⟨min st2.retry_count 2, (strL ("Got it, updated ") ++ joinAnd (x :: xs) ++
        strL (".")) ++ [' '], Nat.min_le_right _ _, ?_⟩
      rw [hresp, hstrip]
      simp [List.append_assoc]

/-- C9: on an accepted non-finalizing turn the generic fallback response is
never produced: either a slot update makes the acknowledgment non-empty, or the
retry counter was just incremented so the prompt index is at least 1.  The bot
response is always a (possibly acknowledged) scripted prompt for the current
step. -/
theorem c9_fallback_unreachable (st : SessionState) (rawT : Str) (tsOpt : Option Str)
    (now : Str) (w : Str → Option ℚ) (f : Nat → Option ℚ) (n : Slot) (rest : List Slot)
    (hend : st.ended = false)
    (hm : missingOf ((turnApply (addMsg st (strL ("user")) (pyStrip rawT)
      (tsOpt.getD now)) (pyStrip rawT) w).1) = n :: rest) :
    ∃ resp, (webhook st rawT tsOpt now w f).2 = Except.ok resp ∧
      resp ≠ fallbackResponse ∧
      ∃ i pre, i ≤ 2 ∧ resp = pre ++ promptFor n ((turnApply (addMsg st (strL ("user"))
        (pyStrip rawT) (tsOpt.getD now)) (pyStrip rawT) w).1).trading_pair i := by
  have hw : (webhook st rawT tsOpt now w f).2 =
      Except.ok (promptResponse ((turnApply (addMsg st (strL ("user")) (pyStrip rawT)
        (tsOpt.getD now)) (pyStrip rawT) w).1) ((turnApply (addMsg st (strL ("user"))
        (pyStrip rawT) (tsOpt.getD now)) (pyStrip rawT) w).2) n) := by
    simp only [webhook, hend, Bool.false_eq_true, if_false, hm]
    exact promptTurn_snd _ _ _ _
  exact ⟨_, hw, (promptResponse_shape _ _ n).1, (promptResponse_shape _ _ n).2⟩

/-- Witness for C9 at a concrete accepted non-finalizing turn. -/
theorem c9_witness :
    ∃ resp, (webhook (start_call [] 0) (strL ("hello")) none [] w2n_none fetch_fail).2 =
        Except.ok resp ∧
      resp ≠ fallbackResponse ∧
      ∃ i pre, i ≤ 2 ∧ resp = pre ++ promptFor Slot.exchange
        ((turnApply (addMsg (start_call [] 0) (strL ("user")) (pyStrip (strL ("hello")))
          ((none : Option Str).getD [])) (pyStrip (strL ("hello"))) w2n_none).1).trading_pair i :=
  c9_fallback_unreachable (start_call [] 0) (strL ("hello")) none [] w2n_none fetch_fail
    Slot.exchange [Slot.trading_pair, Slot.quantity, Slot.price] rfl (by decide)

lemma numbersOf_digits (w : Str → Option ℚ) (t : Str)
    (hL : findallNums (lowerStr t) ≠ []) :
    numbersOf w t = (findallNums (lowerStr t)).map some := by
  simp only [numbersOf]
  rw [if_neg]
  simp [hL]

lemma headO_map_some (L : List ℚ) : headO (L.map some) = L.head? := by
  cases L <;> rfl

lemma lastO_map_some (L : List ℚ) : lastO (L.map some) = L.getLast? := by
  induction L with
  | nil => rfl
  | cons x t ih =>
    cases t with
    | nil => rfl
    | cons y s =>
      have h1 : lastO ((x :: y :: s).map some) = lastO ((y :: s).map some) := rfl
      rw [h1, ih]
      simp [List.getLast?]

lemma map_some_ne_nil (L : List ℚ) (hL : L ≠ []) : (L.map some).isEmpty = false := by
  cases L with
  | nil => exact absurd rfl hL
  | cons x t => rfl

lemma qtyCand_noAt (w : Str → Option ℚ) (t : Str) (hL : findallNums (lowerStr t) ≠ [])
    (hat : hasAt t = false) : qtyCand w t = (findallNums (lowerStr t)).head? := by
  simp only [qtyCand, numbersOf_digits w t hL, hat, map_some_ne_nil _ hL]
  simp [headO_map_some]

lemma qtyCand_at (w : Str → Option ℚ) (t : Str) (hat : hasAt t = true) :
    qtyCand w t = none := by
  simp [qtyCand, hat]

lemma priceCand_at (w : Str → Option ℚ) (q0 : Option ℚ) (t : Str)
    (hL : findallNums (lowerStr t) ≠ []) (hat : hasAt t = true) :
    priceCand w q0 t = (findallNums (lowerStr t)).getLast? := by
  simp only [priceCand, numbersOf_digits w t hL, hat, map_some_ne_nil _ hL]
  simp [lastO_map_some]

lemma priceCand_noAt (w : Str → Option ℚ) (q0 : Option ℚ) (t : Str)
    (hL : findallNums (lowerStr t) ≠ []) (hat : hasAt t = false) :
    priceCand w q0 t =
      if pyTruthyQ q0 = true then (findallNums (lowerStr t)).head? else none := by
  simp only [priceCand, numbersOf_digits w t hL, hat, map_some_ne_nil _ hL]
  cases hq : pyTruthyQ q0 <;> simp [headO_map_some, hq]

/-- C5 counterexample: the keyword test is a substring test (`"update 100"`
contains `at` inside `update`), so the lone number 100 is not assigned as the
quantity candidate (the claim requires it to be) and is instead assigned as the
price candidate; moreover with `"at 100 then 200"` the price candidate is the
last number 200, not the value 100 nearest the keyword `at`. -/
theorem c5_counterexample :
    qtyCand w2n_none (strL ("update 100")) = none ∧
    priceCand w2n_none none (strL ("update 100")) = some 100 ∧
    priceCand w2n_none none (strL ("at 100 then 200")) = some 200 :=
  ⟨by decide, by decide, by decide⟩

/-- C5 (amended): if the utterance contains `at` as a substring (not
necessarily as a word), the last numeric value becomes the price candidate and
no quantity candidate is assigned; otherwise the first numeric value becomes
the quantity candidate, and it additionally becomes the price candidate exactly
when the session's quantity is already set to a nonzero value. -/
theorem c5_amended (w : Str → Option ℚ) (q0 : Option ℚ) (t : Str)
    (hL : findallNums (lowerStr t) ≠ []) :
    (hasAt t = true →
      qtyCand w t = none ∧
      priceCand w q0 t = (findallNums (lowerStr t)).getLast?) ∧
    (hasAt t = false →
      qtyCand w t = (findallNums (lowerStr t)).head? ∧
      priceCand w q0 t =
        (if pyTruthyQ q0 = true then (findallNums (lowerStr t)).head? else none)) :=
  ⟨fun hat => ⟨qtyCand_at w t hat, priceCand_at w q0 t hL hat⟩,
   fun hat => ⟨qtyCand_noAt w t hL hat, priceCand_noAt w q0 t hL hat⟩⟩

/-- Witness for C5 (amended) at a concrete utterance with two numbers. -/
theorem c5_witness :
    qtyCand w2n_none (strL ("buy 3 then 4")) =
        (findallNums (lowerStr (strL ("buy 3 then 4")))).head? ∧
      priceCand w2n_none (some 5) (strL ("buy 3 then 4")) =
        (if pyTruthyQ (some 5) = true
          then (findallNums (lowerStr (strL ("buy 3 then 4")))).head? else none) :=
  (c5_amended w2n_none (some 5) (strL ("buy 3 then 4")) (by decide)).2 (by decide)

lemma head?_isSome_of_ne_nil (L : List ℚ) (hL : L ≠ []) : L.head?.isSome = true := by
  cases L with
  | nil => exact absurd rfl hL
  | cons x t => rfl

/-- C10: on a correction turn whose utterance contains a digit-written number
and no `at` substring, if the session's quantity is already set to a nonzero
value, then both the quantity slot and the price slot are overwritten with the
same value, the first number of the utterance. -/
theorem c10_double_overwrite (st : SessionState) (rawT : Str) (tsOpt : Option Str)
    (now : Str) (w : Str → Option ℚ) (f : Nat → Option ℚ) (v : ℚ)
    (hend : st.ended = false)
    (hcorr : isCorrectionB (pyStrip rawT) = true)
    (hnum : findallNums (lowerStr (pyStrip rawT)) ≠ [])
    (hat : hasAt (pyStrip rawT) = false)
    (hq : st.quantity = some v) (hv : v ≠ 0) :
    ((webhook st rawT tsOpt now w f).1).quantity =
        (findallNums (lowerStr (pyStrip rawT))).head? ∧
      ((webhook st rawT tsOpt now w f).1).price =
        (findallNums (lowerStr (pyStrip rawT))).head? := by
  have hqc : qtyCand w (pyStrip rawT) = (findallNums (lowerStr (pyStrip rawT))).head? :=
    qtyCand_noAt w (pyStrip rawT) hnum hat
  have htruthy : pyTruthyQ st.quantity = true := by
    rw [hq]; simp [pyTruthyQ, hv]
  have hpc : priceCand w st.quantity (pyStrip rawT) =
      (findallNums (lowerStr (pyStrip rawT))).head? := by
    rw [priceCand_noAt w st.quantity (pyStrip rawT) hnum hat, htruthy]
    simp
  have hsome : ((findallNums (lowerStr (pyStrip rawT))).head?).isSome = true :=
    head?_isSome_of_ne_nil _ hnum
  constructor
  · rw [webhook_char_quantity st rawT tsOpt now w f hend, hcorr, hqc]
    simp [hsome]
  · rw [webhook_char_price st rawT tsOpt now w f hend, hcorr, hpc]
    simp [hsome]

/-- Witness for C10 at a concrete correction turn. -/
theorem c10_witness :
    ((webhook { start_call [] 0 with quantity := some 5 } (strL ("actually 7")) none []
        w2n_none fetch_fail).1).quantity =
      (findallNums (lowerStr (pyStrip (strL ("actually 7"))))).head? ∧
    ((webhook { start_call [] 0 with quantity := some 5 } (strL ("actually 7")) none []
        w2n_none fetch_fail).1).price =
      (findallNums (lowerStr (pyStrip (strL ("actually 7"))))).head? :=
  c10_double_overwrite { start_call [] 0 with quantity := some 5 } (strL ("actually 7"))
    none [] w2n_none fetch_fail 5 rfl (by decide) (by decide) (by decide) rfl (by decide)

lemma isPre_append_self (n b : Str) : isPre n (n ++ b) = true := by
  induction n with
  | nil => rfl
  | cons c cs ih => simp [isPre, ih]

lemma isSubstr_of_isPre (n h : Str) (hp : isPre n h = true) : isSubstr n h = true := by
  cases h with
  | nil =>
    cases n with
    | nil => rfl
    | cons x xs => simp [isPre] at hp
  | cons c cs => simp [isSubstr, hp]

lemma isSubstr_append_mid (n a b : Str) : isSubstr n (a ++ (n ++ b)) = true := by
  induction a with
  | nil =>
    rw [List.nil_append]
    exact isSubstr_of_isPre n (n ++ b) (isPre_append_self n b)
  | cons c cs ih => simp [isSubstr, ih]

lemma confirmMsg_warn (st2 : SessionState) (err : Option Str) :
    ∃ a b, confirmMsg st2 none err =
      a ++ ((couldntFetch ++ optStrPy err ++ strL (".")) ++ b) := by
  refine ⟨strL ("✅ Order confirmed: Trading ") ++ qtyRepr st2.quantity ++ strL (" ") ++
    optStrPy st2.trading_pair ++ strL (" on ") ++
    (match st2.exchange with
      | some e => displayGet e (pyCapitalize e)
      | none => strL ("None")) ++ strL (" at $") ++
    fix2O st2.price ++ strL (". "), strL (" Goodbye!"), ?_⟩
  simp [confirmMsg, priceMsgOf, warnMsg, List.append_assoc]

lemma gcp_all_fail (fetch : Nat → Option ℚ) (hf : ∀ i, i < 3 → fetch i = none) :
    get_current_price fetch 3 1 =
      some ((none, some (strL ("failed to fetch price"))), [1, 2]) := by
  have h0 := hf 0 (by norm_num)
  have h1 := hf 1 (by norm_num)
  have h2 := hf 2 (by norm_num)
  have hr : List.range 3 = [0, 1, 2] := by decide
  simp [get_current_price, hr, gcpLoop, h0, h1, h2]

/-- C7: when the price fetch fails on all three attempts, `get_current_price`
sleeps 1 then 2 units (exponential backoff) and surfaces the typed failure, and
finalization still proceeds: the session is marked ended and the confirmation
response embeds the could-not-fetch-price warning instead of a market price. -/
theorem c7_price_failure (st : SessionState) (rawT : Str) (tsOpt : Option Str)
    (now : Str) (w : Str → Option ℚ) (fetch : Nat → Option ℚ)
    (hf : ∀ i, i < 3 → fetch i = none) (hend : st.ended = false)
    (hmiss : missingOf ((turnApply (addMsg st (strL ("user")) (pyStrip rawT)
      (tsOpt.getD now)) (pyStrip rawT) w).1) = []) :
    get_current_price fetch 3 1 =
        some ((none, some (strL ("failed to fetch price"))), [1, 2]) ∧
      ((webhook st rawT tsOpt now w fetch).1).ended = true ∧
      ∃ resp, (webhook st rawT tsOpt now w fetch).2 = Except.ok resp ∧
        isSubstr (couldntFetch ++ strL ("failed to fetch price") ++ strL (".")) resp =
          true := by
  have hgcp := gcp_all_fail fetch hf
  refine ⟨hgcp, ?_, ?_⟩
  · simp only [webhook, hend, Bool.false_eq_true, if_false, hmiss]
    rw [finalizeTurn_some _ fetch now _ hgcp]
    simp [addMsg]
  · simp only [webhook, hend, Bool.false_eq_true, if_false, hmiss]
    rw [finalizeTurn_some _ fetch now _ hgcp]
    refine ⟨_, rfl, ?_⟩
    obtain ⟨a, b, hab⟩ := confirmMsg_warn ((turnApply (addMsg st (strL ("user"))
      (pyStrip rawT) (tsOpt.getD now)) (pyStrip rawT) w).1)
      (some (strL ("failed to fetch price")))
    rw [hab]
    exact isSubstr_append_mid _ a b

/-- A session with exchange, pair, and quantity set, one price short of completion. -/
def c7state : SessionState :=
  { start_call [] 0 with
      exchange := some (strL ("okx"))
      trading_pair := some (strL ("BTC/USDT"))
      quantity := some 2 }

/-- Witness for C7 at a session one price short of completion. -/
theorem c7_witness :
    get_current_price fetch_fail 3 1 =
        some ((none, some (strL ("failed to fetch price"))), [1, 2]) ∧
      ((webhook c7state (strL ("at 100")) none [] w2n_none fetch_fail).1).ended = true ∧
      ∃ resp, (webhook c7state (strL ("at 100")) none [] w2n_none fetch_fail).2 =
          Except.ok resp ∧
        isSubstr (couldntFetch ++ strL ("failed to fetch price") ++ strL (".")) resp =
          true :=
  c7_price_failure c7state (strL ("at 100")) none [] w2n_none fetch_fail
    (fun i _ => rfl) rfl (by decide)

lemma classRun_cons_true (p : Char → Bool) (c : Char) (cs : Str) (h : p c = true) :
    classRun p (c :: cs) = classRun p cs + 1 := by simp [classRun, h]

lemma classRun_cons_false (p : Char → Bool) (c : Char) (cs : Str) (h : p c = false) :
    classRun p (c :: cs) = 0 := by simp [classRun, h]

lemma isUpAlnum_ne (c x : Char) (h : isUpAlnum c = true) (hx : isUpAlnum x = false) :
    c ≠ x := by
  intro he
  rw [he, hx] at h
  cases h

lemma isUpAlnum_not_sep (c : Char) (h : isUpAlnum c = true) : sepChar c = false := by
  have h1 : c ≠ '/' := isUpAlnum_ne c _ h (by decide)
  have h2 : c ≠ '-' := isUpAlnum_ne c _ h (by decide)
  have h3 : c ≠ ' ' := isUpAlnum_ne c _ h (by decide)
  simp [sepChar, h1, h2, h3]

lemma isUpAlnum_not_space (c : Char) (h : isUpAlnum c = true) : isPySpace c = false := by
  have h1 : c ≠ ' ' := isUpAlnum_ne c _ h (by decide)
  have h2 : c ≠ '\t' := isUpAlnum_ne c _ h (by decide)
  have h3 : c ≠ '\n' := isUpAlnum_ne c _ h (by decide)
  have h4 : c ≠ '\r' := isUpAlnum_ne c _ h (by decide)
  have h5 : c ≠ '\x0b' := isUpAlnum_ne c _ h (by decide)
  have h6 : c ≠ '\x0c' := isUpAlnum_ne c _ h (by decide)
  simp [isPySpace, h1, h2, h3, h4, h5, h6]

lemma classRun_append_stop (p : Char → Bool) (l : Str) (x : Char) (r : Str)
    (hl : ∀ c ∈ l, p c = true) (hx : p x = false) :
    classRun p (l ++ x :: r) = l.length := by
  induction l with
  | nil => simp [classRun, hx]
  | cons c cs ih =>
    have hc : p c = true := hl c (by simp)
    simp only [List.cons_append, classRun_cons_true p c _ hc,
      ih (fun d hd => hl d (by simp [hd])), List.length_cons]

lemma descList_cons2 (n : Nat) (h : 2 ≤ n) : descList n 2 = n :: descList (n - 1) 2 := by
  cases n with
  | zero => omega
  | succ m =>
    simp [descList, Nat.not_lt.mpr h]

lemma p1Group2_trade (b0 : Char) (B' rest : Str)
    (hB : ∀ c ∈ b0 :: B', isUpAlnum c = true) (h2 : 2 ≤ (b0 :: B').length)
    (h6 : (b0 :: B').length ≤ 6) :
    p1Group2 (b0 :: (B' ++ ' ' :: rest)) = some (b0 :: B') := by
  have hw : isWordChar ' ' = false := by decide
  have hrun : classRun isUpAlnum (b0 :: (B' ++ ' ' :: rest)) = (b0 :: B').length := by
    rw [show b0 :: (B' ++ ' ' :: rest) = (b0 :: B') ++ ' ' :: rest from rfl]
    exact classRun_append_stop _ _ _ _ hB (by decide)
  simp only [p1Group2, hrun]
  rw [Nat.min_eq_right h6, descList_cons2 _ h2, List.findSome?_cons]
  rw [show b0 :: (B' ++ ' ' :: rest) = (b0 :: B') ++ ' ' :: rest from rfl]
  rw [List.drop_left, List.take_left]
  simp [endWordBoundary, hw]

lemma p1AfterSep_trade (b0 : Char) (B' rest : Str)
    (hB : ∀ c ∈ b0 :: B', isUpAlnum c = true) (h2 : 2 ≤ (b0 :: B').length)
    (h6 : (b0 :: B').length ≤ 6) :
    p1AfterSep (b0 :: (B' ++ ' ' :: rest)) = some (b0 :: B') := by
  have hns : isPySpace b0 = false := isUpAlnum_not_space b0 (hB b0 (by simp))
  have hrun : classRun isPySpace (b0 :: (B' ++ ' ' :: rest)) = 0 :=
    classRun_cons_false _ _ _ hns
  simp only [p1AfterSep, hrun]
  rw [show descList 0 0 = [0] from by decide, List.findSome?_cons, List.drop_zero]
  rw [p1Group2_trade b0 B' rest hB h2 h6]

lemma p1AfterG1_trade (b0 : Char) (B' rest : Str)
    (hB : ∀ c ∈ b0 :: B', isUpAlnum c = true) (h2 : 2 ≤ (b0 :: B').length)
    (h6 : (b0 :: B').length ≤ 6) :
    p1AfterG1 (' ' :: (b0 :: (B' ++ ' ' :: rest))) = some (b0 :: B') := by
  have hns : isPySpace b0 = false := isUpAlnum_not_space b0 (hB b0 (by simp))
  have hsep : sepChar b0 = false := isUpAlnum_not_sep b0 (hB b0 (by simp))
  have hrun : classRun isPySpace (' ' :: (b0 :: (B' ++ ' ' :: rest))) = 1 := by
    rw [classRun_cons_true _ _ _ (by decide), classRun_cons_false _ _ _ hns]
  simp only [p1AfterG1, hrun]
  rw [show descList 1 0 = [1, 0] from by decide, List.findSome?_cons]
  rw [show List.drop 1 (' ' :: (b0 :: (B' ++ ' ' :: rest))) =
    b0 :: (B' ++ ' ' :: rest) from rfl]
  rw [List.findSome?_cons, List.drop_zero]
  simp only [hsep, Bool.false_eq_true, if_false]
  have hsp : sepChar ' ' = true := by decide
  simp only [hsp, if_true]
  rw [p1AfterSep_trade b0 B' rest hB h2 h6]

lemma matchP1_trade (b0 : Char) (B' rest : Str)
    (hB : ∀ c ∈ b0 :: B', isUpAlnum c = true) (h2 : 2 ≤ (b0 :: B').length)
    (h6 : (b0 :: B').length ≤ 6) :
    matchP1At false
        ('T' :: 'R' :: 'A' :: 'D' :: 'E' :: ' ' :: (b0 :: (B' ++ ' ' :: rest))) =
      some (strL ("TRADE"), b0 :: B') := by
  have hrun : classRun isUpAlnum
      ('T' :: 'R' :: 'A' :: 'D' :: 'E' :: ' ' :: (b0 :: (B' ++ ' ' :: rest))) = 5 := by
    rw [classRun_cons_true _ _ _ (by decide), classRun_cons_true _ _ _ (by decide),
      classRun_cons_true _ _ _ (by decide), classRun_cons_true _ _ _ (by decide),
      classRun_cons_true _ _ _ (by decide), classRun_cons_false _ _ _ (by decide)]
  simp only [matchP1At, Bool.false_eq_true, if_false, hrun]
  rw [show min 6 5 = 5 from rfl, show descList 5 2 = [5, 4, 3, 2] from by decide,
    List.findSome?_cons]
  rw [show List.drop 5 ('T' :: 'R' :: 'A' :: 'D' :: 'E' :: ' ' ::
    (b0 :: (B' ++ ' ' :: rest))) = ' ' :: (b0 :: (B' ++ ' ' :: rest)) from rfl]
  rw [p1AfterG1_trade b0 B' rest hB h2 h6]
  rfl

lemma searchP1_trade (b0 : Char) (B' rest : Str)
    (hB : ∀ c ∈ b0 :: B', isUpAlnum c = true) (h2 : 2 ≤ (b0 :: B').length)
    (h6 : (b0 :: B').length ≤ 6) :
    searchP1Go false
        ('T' :: 'R' :: 'A' :: 'D' :: 'E' :: ' ' :: (b0 :: (B' ++ ' ' :: rest))) =
      some (strL ("TRADE"), b0 :: B') := by
  simp only [searchP1Go]
  rw [matchP1_trade b0 B' rest hB h2 h6]

/-- C8 (amended): in every utterance whose uppercased text is
`TRADE B <space>…` with `B` a 2–6 character alphanumeric token, and which the
separator-word and mispronunciation rewrites leave unchanged, the first
pattern (`TOKEN<sep>TOKEN` with a whitespace separator) matches the words
`TRADE B` first, so the extractor returns `TRADE/B` — the literal word `trade`
is captured as the base.  In particular `trade BASE with QUOTE` and
`trade BASE against QUOTE` never yield `BASE/QUOTE`. -/
theorem c8_amended (u B rest : Str)
    (hup : upperStr u = strL ("TRADE ") ++ (B ++ ' ' :: rest))
    (hpre : preprocessPair (upperStr u) = upperStr u)
    (hB : ∀ c ∈ B, isUpAlnum c = true) (h2 : 2 ≤ B.length) (h6 : B.length ≤ 6) :
    extract_trading_pair u = some (strL ("TRADE/") ++ B) := by
  rcases B with _ | ⟨b0, B'⟩
  · simp at h2
  simp only [extract_trading_pair]
  rw [hpre, hup]
  rw [show strL ("TRADE ") ++ ((b0 :: B') ++ ' ' :: rest) =
    'T' :: 'R' :: 'A' :: 'D' :: 'E' :: ' ' :: (b0 :: (B' ++ ' ' :: rest)) from rfl]
  rw [searchP1_trade b0 B' rest hB h2 h6]
  rfl

/-- C8 counterexample: `trade btc with usdt` yields `TRADE/BTC`, not
`BTC/USDT` — the whitespace-separator pattern matches `TRADE BTC` before the
`trade … with …` pattern is ever tried. -/
theorem c8_counterexample :
    extract_trading_pair (strL ("trade btc with usdt")) = some (strL ("TRADE/BTC")) ∧
    strL ("TRADE/BTC") ≠ strL ("BTC/USDT") :=
  ⟨by decide, by decide⟩

/-- Witness for C8 (amended) at `trade eth against usdt`. -/
theorem c8_witness :
    extract_trading_pair (strL ("trade eth against usdt")) =
      some (strL ("TRADE/") ++ strL ("ETH")) :=
  c8_amended (strL ("trade eth against usdt")) (strL ("ETH")) (strL ("AGAINST USDT"))
    (by decide) (by decide) (by decide) (by decide) (by decide)
